import Mathlib

/-!
Verification of the go-ase row cursor engine (`Rows` in the driver source)
and the transaction stack manager, against the repository specification.

The cursor code (`Rows.Next`, `Rows.NextResultSet`, `Rows.HasNextResultSet`,
`Rows.Close`, `Rows.Columns`, `Rows.ColumnTypeLength`,
`Rows.ColumnTypeDatabaseTypeName`) is embedded shallowly: the message
channel is a list of typed packages, Go errors are an inductive with a
wrapping constructor mirroring `fmt.Errorf("...: %w", err)`, and
`errors.Is(err, io.EOF)` is a recursive chain test.
-/

namespace Ase

/-- A decoded field value carried by a row package (`driver.Value`). -/
inductive Value where
  | vInt : Int → Value
  | vStr : String → Value
deriving DecidableEq

/-- A column descriptor from a row-format package (`tds.FieldFmt`):
name, declared maximum byte length, declared data type tag. -/
structure FieldFmt where
  name : String
  maxLength : Int
  dataType : String
deriving DecidableEq

/-- A typed protocol message (`tds.Package`).  `donePkg` carries the
`Status&TDS_DONE_MORE == TDS_DONE_MORE` continuation bit; `otherPkg`
stands for any package type not handled by the cursor's classifiers. -/
inductive Package where
  | rowPkg : List Value → Package
  | rowFmtPkg : List FieldFmt → Package
  | orderByPkg : Package
  | donePkg : Bool → Package
  | returnStatusPkg : Int → Package
  | otherPkg : Package
deriving DecidableEq

/-- Go error values produced by the cursor. `wrapped s e` models
`fmt.Errorf(s ++ "%w", e)`; `eof` is the bare `io.EOF` sentinel;
`noPackageReady` is `tds.ErrNoPackageReady`; `invalidDestCount expected got`
is the schema-mismatch error; `queryFailed code` is the nonzero
return-status error; `unhandledPackage` is the default-branch error. -/
inductive GoErr where
  | eof : GoErr
  | noPackageReady : GoErr
  | invalidDestCount : Nat → Nat → GoErr
  | queryFailed : Int → GoErr
  | unhandledPackage : GoErr
  | wrapped : String → GoErr → GoErr
deriving DecidableEq

/-- `errors.Is(e, io.EOF)`: walks the `%w` wrapping chain. -/
def GoErr.isEOF : GoErr → Bool
  | .eof => true
  | .wrapped _ e => e.isEOF
  | _ => false

/-- `errors.Is(e, tds.ErrNoPackageReady)`: walks the wrapping chain. -/
def GoErr.isNoPackageReady : GoErr → Bool
  | .noPackageReady => true
  | .wrapped _ e => e.isNoPackageReady
  | _ => false

/-- The cursor state (`Rows` struct): the active row format (`RowFmt`,
a nil-able pointer, hence `Option`), the edge-triggered result-set
boundary flag (`hasNextResultSet`), and the connection's message channel
position, modelled as the list of messages not yet consumed. -/
structure Rows where
  RowFmt : Option (List FieldFmt)
  hasNextResultSet : Bool
  channel : List Package
deriving DecidableEq

/-- Modelled from the spec: the Message Channel primitive
`read_next(classifier: Message → {stop: bool, error: Option<Error>})`
(`tds.Channel.NextPackageUntil`, external to src/).  Reads messages in
order; each is passed to the classifier, which may update its closure
state.  A classifier error ends the read with that error; `stop = true`
ends it successfully; otherwise reading continues.  On an exhausted
channel the read fails with end-of-stream when blocking (`wait = true`)
and with `noPackageReady` otherwise.  Returns the final closure state,
the remaining channel, and the error if any. -/
def NextPackageUntil {σ : Type} (wait : Bool)
    (classify : σ → Package → σ × Bool × Option GoErr)
    (st : σ) (ch : List Package) : σ × List Package × Option GoErr :=
  match ch with
  | [] => (st, [], some (if wait then GoErr.eof else GoErr.noPackageReady))
  | pkg :: rest =>
    match classify st pkg with
    | (st2, _, some e) => (st2, rest, some e)
    | (st2, true, none) => (st2, rest, none)
    | (st2, false, none) => NextPackageUntil wait classify st2 rest

/-- Modelled from the spec: `handleDonePackage` (referenced by
`Rows.Next` but defined outside src/).  Per the spec's Completion
contract: if the continuation bit is set, classification continues;
if clear, the message marks the true end and the read stops reporting
stream depleted (`io.EOF`). -/
def handleDonePackage (more : Bool) : Bool × Option GoErr :=
  if more then (false, none) else (false, some GoErr.eof)

/-- The classifier closure of `Rows.Next`.  Closure state: the `RowFmt`
and `hasNextResultSet` fields of the cursor plus the destination buffer
`dst`.  Mirrors the source switch case by case. -/
def nextClassify (st : Option (List FieldFmt) × Bool × List Value)
    (pkg : Package) :
    (Option (List FieldFmt) × Bool × List Value) × Bool × Option GoErr :=
  match pkg with
  | .rowPkg fields =>
    if st.2.2.length ≠ fields.length then
      (st, true, some (GoErr.invalidDestCount fields.length st.2.2.length))
    else ((st.1, st.2.1, fields), true, none)
  | .rowFmtPkg fmts => ((some fmts, true, st.2.2), false, some GoErr.eof)
  | .orderByPkg => (st, false, none)
  | .donePkg more =>
    match handleDonePackage more with
    | (_, some e) => (st, true, some (GoErr.wrapped "go-ase: " e))
    | (ok, none) => (st, ok, none)
  | .returnStatusPkg code =>
    if code ≠ 0 then (st, true, some (GoErr.queryFailed code))
    else (st, false, none)
  | .otherPkg => (st, true, some GoErr.unhandledPackage)

/-- `Rows.Next`: returns the updated cursor, the destination buffer
contents after the call, and the error (`none` = one row produced). -/
def Next (rows : Rows) (dst : List Value) :
    Rows × List Value × Option GoErr :=
  if rows.RowFmt = none ∧ dst.length = 0 then (rows, dst, some GoErr.eof)
  else
    match NextPackageUntil true nextClassify
        (rows.RowFmt, rows.hasNextResultSet, dst) rows.channel with
    | ((fmt2, flag2, dst2), ch2, none) => (⟨fmt2, flag2, ch2⟩, dst2, none)
    | ((fmt2, flag2, dst2), ch2, some e) =>
      if e.isEOF = true then (⟨fmt2, flag2, ch2⟩, dst2, some GoErr.eof)
      else (⟨fmt2, flag2, ch2⟩, dst2,
        some (GoErr.wrapped "go-ase: error reading next row package: " e))

/-- The classifier closure of `Rows.NextResultSet`, mirroring the source
switch case by case (the `returnStatusPkg` case falls into the source's
default branch). -/
def nrsClassify (st : Option (List FieldFmt) × Bool) (pkg : Package) :
    (Option (List FieldFmt) × Bool) × Bool × Option GoErr :=
  match pkg with
  | .rowFmtPkg fmts => ((some fmts, true), false, none)
  | .rowPkg _ => (st, true, none)
  | .orderByPkg => (st, true, none)
  | .donePkg more =>
    if more then (st, false, none)
    else (st, true, some (GoErr.wrapped "go-ase: no next result set: " GoErr.eof))
  | .returnStatusPkg _ => (st, false, some GoErr.unhandledPackage)
  | .otherPkg => (st, false, some GoErr.unhandledPackage)

/-- `Rows.NextResultSet`: returns the updated cursor and the error
(`none` = positioned successfully). -/
def NextResultSet (rows : Rows) : Rows × Option GoErr :=
  match NextPackageUntil false nrsClassify
      (rows.RowFmt, rows.hasNextResultSet) rows.channel with
  | ((fmt2, flag2), ch2, none) => (⟨fmt2, flag2, ch2⟩, none)
  | ((fmt2, flag2), ch2, some e) =>
    if (e.isNoPackageReady || e.isEOF) = true then
      (⟨fmt2, flag2, ch2⟩, some GoErr.eof)
    else (⟨fmt2, flag2, ch2⟩,
      some (GoErr.wrapped "go-ase: error reading next package: " e))

/-- `Rows.HasNextResultSet`: returns the updated cursor and the flag value. -/
def HasNextResultSet (rows : Rows) : Rows × Bool :=
  if (!rows.hasNextResultSet) = true then (rows, false)
  else ({ rows with hasNextResultSet := false }, true)

/-- `Rows.Columns`: the active format's column names, in order; empty
when no format is active. -/
def Columns (rows : Rows) : List String :=
  match rows.RowFmt with
  | none => []
  | some fmts => fmts.map FieldFmt.name

/-- `Rows.ColumnTypeLength`.  `none` models a Go runtime panic: the
source dereferences `rows.RowFmt.Fmts` unconditionally (nil-pointer
panic when no format is active) and indexes `Fmts[index]` guarded only
by `index >= len(...)` (index-out-of-range panic for negative indices). -/
def ColumnTypeLength (rows : Rows) (index : Int) : Option (Int × Bool) :=
  match rows.RowFmt with
  | none => none
  | some fmts =>
    if (fmts.length : Int) ≤ index then some (0, false)
    else if h : 0 ≤ index ∧ index.toNat < fmts.length then
      some ((fmts.get ⟨index.toNat, h.2⟩).maxLength, true)
    else none

/-- `Rows.ColumnTypeDatabaseTypeName`.  `none` models a Go runtime panic
exactly as in `ColumnTypeLength`. -/
def ColumnTypeDatabaseTypeName (rows : Rows) (index : Int) : Option String :=
  match rows.RowFmt with
  | none => none
  | some fmts =>
    if (fmts.length : Int) ≤ index then some ""
    else if h : 0 ≤ index ∧ index.toNat < fmts.length then
      some (fmts.get ⟨index.toNat, h.2⟩).dataType
    else none

/-- Modelled from the spec: the statement-execution entry point (external
to src/, spec §2) builds the cursor for a statement's message stream by
consuming the leading row-format descriptor as the initial active format;
the boundary flag starts clear. -/
def mkRows (msgs : List Package) : Rows :=
  match msgs with
  | .rowFmtPkg fmts :: rest => ⟨some fmts, false, rest⟩
  | _ => ⟨none, false, msgs⟩

/-- A successful blocking read (no classifier error, stopped) always
consumes at least one message: the remaining channel is strictly
shorter. -/
theorem npu_none_length_lt {σ : Type} (wait : Bool)
    (classify : σ → Package → σ × Bool × Option GoErr) :
    ∀ (ch : List Package) (st : σ) (st2 : σ) (ch2 : List Package),
      NextPackageUntil wait classify st ch = (st2, ch2, none) →
      ch2.length < ch.length := by
  intro ch
  induction ch with
  | nil =>
    intro st st2 ch2 h
    simp [NextPackageUntil] at h
  | cons pkg rest ih =>
    intro st st2 ch2 h
    rcases hc : classify st pkg with ⟨st3, stop, oe⟩
    rw [NextPackageUntil, hc] at h
    match oe, stop with
    | some e, true => simp at h
    | some e, false => simp at h
    | none, true =>
      have h2 : rest = ch2 := congrArg (fun t => t.2.1) h
      rw [← h2, List.length_cons]
      omega
    | none, false =>
      have h3 : NextPackageUntil wait classify st3 rest = (st2, ch2, none) := h
      have := ih st3 st2 ch2 h3
      rw [List.length_cons]
      omega

/-- The channel after any read is a suffix of the channel before it:
reads only ever consume messages from the front. -/
theorem npu_suffix {σ : Type} (wait : Bool)
    (classify : σ → Package → σ × Bool × Option GoErr) :
    ∀ (ch : List Package) (st : σ),
      ∃ consumed,
        ch = consumed ++ (NextPackageUntil wait classify st ch).2.1 := by
  intro ch
  induction ch with
  | nil => intro st; exact ⟨[], rfl⟩
  | cons pkg rest ih =>
    intro st
    rcases hc : classify st pkg with ⟨st3, stop, oe⟩
    rw [NextPackageUntil, hc]
    match oe, stop with
    | some e, true => exact ⟨[pkg], rfl⟩
    | some e, false => exact ⟨[pkg], rfl⟩
    | none, true => exact ⟨[pkg], rfl⟩
    | none, false =>
      obtain ⟨cons2, hcons⟩ := ih st3
      refine ⟨pkg :: cons2, ?_⟩
      show pkg :: rest
        = (pkg :: cons2) ++ (NextPackageUntil wait classify st3 rest).2.1
      rw [List.cons_append, ← hcons]

/-- A successful `NextResultSet` call strictly shrinks the channel. -/
theorem nextResultSet_none_channel_lt (rows rows2 : Rows)
    (h : NextResultSet rows = (rows2, none)) :
    rows2.channel.length < rows.channel.length := by
  unfold NextResultSet at h
  rcases hnpu : NextPackageUntil false nrsClassify
      (rows.RowFmt, rows.hasNextResultSet) rows.channel with ⟨⟨fmt2, flag2⟩, ch2, oe⟩
  rw [hnpu] at h
  match oe with
  | none =>
    have h1 : (⟨fmt2, flag2, ch2⟩ : Rows) = rows2 := congrArg Prod.fst h
    have h2 : rows2.channel = ch2 := by rw [← h1]
    rw [h2]
    exact npu_none_length_lt false nrsClassify rows.channel
      (rows.RowFmt, rows.hasNextResultSet) (fmt2, flag2) ch2 hnpu
  | some e =>
    have h4 : (if (e.isNoPackageReady || e.isEOF) = true then
        ((⟨fmt2, flag2, ch2⟩ : Rows), some GoErr.eof)
      else ((⟨fmt2, flag2, ch2⟩ : Rows),
        some (GoErr.wrapped "go-ase: error reading next package: " e)))
        = (rows2, none) := h
    by_cases hb : (e.isNoPackageReady || e.isEOF) = true
    · rw [if_pos hb] at h4
      have := congrArg Prod.snd h4
      simp at this
    · rw [if_neg hb] at h4
      have := congrArg Prod.snd h4
      simp at this

/-- `Rows.Close`: drains result sets via `NextResultSet` until it
reports depletion; depletion yields success, any other failure is
wrapped and returned. -/
def Close (rows : Rows) : Rows × Option GoErr :=
  match h : NextResultSet rows with
  | (rows2, none) => Close rows2
  | (rows2, some e) =>
    if e.isEOF = true then (rows2, none)
    else (rows2, some (GoErr.wrapped "go-ase: error consuming result sets: " e))
termination_by rows.channel.length
decreasing_by
  exact nextResultSet_none_channel_lt rows rows2 h

/-- Step lemma: a `Row` message whose field count matches the
destination produces that row and consumes exactly that message. -/
theorem next_row_match (fmt : Option (List FieldFmt)) (flag : Bool)
    (fields : List Value) (rest : List Package) (dst : List Value)
    (hlen : dst.length = fields.length)
    (hentry : ¬(fmt = none ∧ dst.length = 0)) :
    Next ⟨fmt, flag, Package.rowPkg fields :: rest⟩ dst
      = (⟨fmt, flag, rest⟩, fields, none) := by
  have hc : nextClassify (fmt, flag, dst) (Package.rowPkg fields)
      = ((fmt, flag, fields), true, none) := by
    simp [nextClassify, hlen]
  unfold Next
  rw [if_neg hentry, NextPackageUntil, hc]

/-- Step lemma: a `Row` message whose field count mismatches the
destination fails with the schema-mismatch error, wrapped by the
non-EOF error path, leaving the destination untouched. -/
theorem next_row_mismatch (fmt : Option (List FieldFmt)) (flag : Bool)
    (fields : List Value) (rest : List Package) (dst : List Value)
    (hlen : dst.length ≠ fields.length)
    (hentry : ¬(fmt = none ∧ dst.length = 0)) :
    Next ⟨fmt, flag, Package.rowPkg fields :: rest⟩ dst
      = (⟨fmt, flag, rest⟩, dst,
        some (GoErr.wrapped "go-ase: error reading next row package: "
          (GoErr.invalidDestCount fields.length dst.length))) := by
  have hc : nextClassify (fmt, flag, dst) (Package.rowPkg fields)
      = ((fmt, flag, dst), true,
        some (GoErr.invalidDestCount fields.length dst.length)) := by
    simp [nextClassify, hlen]
  unfold Next
  rw [if_neg hentry, NextPackageUntil, hc]
  rfl

/-- Step lemma: a `RowFormat` message stores the new format, raises the
boundary flag and reports depletion with the bare sentinel. -/
theorem next_fmt_head (fmt : Option (List FieldFmt)) (flag : Bool)
    (c : List FieldFmt) (rest : List Package) (dst : List Value)
    (hentry : ¬(fmt = none ∧ dst.length = 0)) :
    Next ⟨fmt, flag, Package.rowFmtPkg c :: rest⟩ dst
      = (⟨some c, true, rest⟩, dst, some GoErr.eof) := by
  have hc : nextClassify (fmt, flag, dst) (Package.rowFmtPkg c)
      = ((some c, true, dst), false, some GoErr.eof) := by
    simp [nextClassify]
  unfold Next
  rw [if_neg hentry, NextPackageUntil, hc]
  rfl

/-- Step lemma: a final `Completion` message (continuation bit clear)
reports depletion with the bare sentinel. -/
theorem next_done_final (fmt : Option (List FieldFmt)) (flag : Bool)
    (rest : List Package) (dst : List Value)
    (hentry : ¬(fmt = none ∧ dst.length = 0)) :
    Next ⟨fmt, flag, Package.donePkg false :: rest⟩ dst
      = (⟨fmt, flag, rest⟩, dst, some GoErr.eof) := by
  have hc : nextClassify (fmt, flag, dst) (Package.donePkg false)
      = ((fmt, flag, dst), true,
        some (GoErr.wrapped "go-ase: " GoErr.eof)) := by
    simp [nextClassify, handleDonePackage]
  unfold Next
  rw [if_neg hentry, NextPackageUntil, hc]
  rfl

/-- Step lemma: skip messages — an `OrderByHint`, an intra-unit
`Completion` (continuation bit set) or a zero `ReturnStatus` — are
consumed transparently and classification continues. -/
theorem next_skip_head (fmt : Option (List FieldFmt)) (flag : Bool)
    (pkg : Package) (rest : List Package) (dst : List Value)
    (hskip : nextClassify (fmt, flag, dst) pkg = ((fmt, flag, dst), false, none))
    (hentry : ¬(fmt = none ∧ dst.length = 0)) :
    Next ⟨fmt, flag, pkg :: rest⟩ dst = Next ⟨fmt, flag, rest⟩ dst := by
  unfold Next
  rw [if_neg hentry, if_neg hentry, NextPackageUntil, hskip]

/-- Step lemma: a nonzero `ReturnStatus` message fails with the
procedure-failed error, wrapped by the non-EOF error path. -/
theorem next_return_status_nonzero (fmt : Option (List FieldFmt))
    (flag : Bool) (code : Int) (rest : List Package) (dst : List Value)
    (hcode : code ≠ 0) (hentry : ¬(fmt = none ∧ dst.length = 0)) :
    Next ⟨fmt, flag, Package.returnStatusPkg code :: rest⟩ dst
      = (⟨fmt, flag, rest⟩, dst,
        some (GoErr.wrapped "go-ase: error reading next row package: "
          (GoErr.queryFailed code))) := by
  have hc : nextClassify (fmt, flag, dst) (Package.returnStatusPkg code)
      = ((fmt, flag, dst), true, some (GoErr.queryFailed code)) := by
    simp [nextClassify, hcode]
  unfold Next
  rw [if_neg hentry, NextPackageUntil, hc]
  rfl

/-- Transaction-stack errors (spec error taxonomy). -/
inductive TxErr where
  | illegalNesting : TxErr
deriving DecidableEq

/-- Modelled from the spec: the Transaction Stack Manager state (§4.2,
external to src/ — only its caller `examples/subtransaction/main.go` is
in the repository snapshot).  `stack` lists the open transaction nodes
by identifier, innermost (top) first; `nextId` generates fresh node
identifiers. -/
structure TxManager where
  stack : List Nat
  nextId : Nat
deriving DecidableEq

/-- Modelled from the spec: `begin(parent, name)` (§4.2).  A name is
only legal when the stack is empty (outermost transaction, no parent);
otherwise the new node is an anonymous savepoint whose parent must be
the current top of the stack.  On success the new node is pushed and
its identifier returned. -/
def TxManager.begin (st : TxManager) (parent : Option Nat)
    (name : Option String) : TxManager × Except TxErr Nat :=
  match st.stack, parent, name with
  | [], none, _ => (⟨[st.nextId], st.nextId + 1⟩, Except.ok st.nextId)
  | top :: rest, some p, none =>
    if p = top then
      (⟨st.nextId :: top :: rest, st.nextId + 1⟩, Except.ok st.nextId)
    else (st, Except.error TxErr.illegalNesting)
  | _, _, _ => (st, Except.error TxErr.illegalNesting)

/-- Modelled from the spec: `commit(node)` (§4.2).  Legal only when the
node is the current top of the stack — committing a node with open
children (which then sit above it) fails with illegal nesting and
leaves the stack unchanged.  On success the node is popped. -/
def TxManager.commit (st : TxManager) (node : Nat) :
    TxManager × Option TxErr :=
  match st.stack with
  | top :: rest =>
    if node = top then (⟨rest, st.nextId⟩, none)
    else (st, some TxErr.illegalNesting)
  | [] => (st, some TxErr.illegalNesting)

/-- Modelled from the spec: `rollback(node)` (§4.2).  Legal only when
the node is the current top of the stack; pops it on success. -/
def TxManager.rollback (st : TxManager) (node : Nat) :
    TxManager × Option TxErr :=
  match st.stack with
  | top :: rest =>
    if node = top then (⟨rest, st.nextId⟩, none)
    else (st, some TxErr.illegalNesting)
  | [] => (st, some TxErr.illegalNesting)

/-- Claim C1: for every message stream of the form
[RowFormat(c), Row(r1), Row(r2), Completion(more=false)], repeatedly
calling Next (with a destination sized to c's column count) yields
exactly r1, then r2, then the Depleted sentinel (io.EOF), and Columns
returns the names of c's columns, in order, at every point of the
iteration.  (The rows carry c.length fields, per the data-model
invariant that a Row's length equals the active format's column count.) -/
theorem rows_next_two_rows_then_depleted (c : List FieldFmt)
    (r1 r2 dst : List Value)
    (h1 : r1.length = c.length) (h2 : r2.length = c.length)
    (hd : dst.length = c.length) :
    let s0 := mkRows [Package.rowFmtPkg c, Package.rowPkg r1,
      Package.rowPkg r2, Package.donePkg false]
    let t1 := Next s0 dst
    let t2 := Next t1.1 t1.2.1
    let t3 := Next t2.1 t2.2.1
    t1.2.2 = none ∧ t1.2.1 = r1 ∧ t2.2.2 = none ∧ t2.2.1 = r2 ∧
    t3.2.2 = some GoErr.eof ∧
    Columns s0 = c.map FieldFmt.name ∧ Columns t1.1 = c.map FieldFmt.name ∧
    Columns t2.1 = c.map FieldFmt.name ∧
    Columns t3.1 = c.map FieldFmt.name := by
  have hs0 : mkRows [Package.rowFmtPkg c, Package.rowPkg r1,
      Package.rowPkg r2, Package.donePkg false]
      = (⟨some c, false, [Package.rowPkg r1, Package.rowPkg r2,
          Package.donePkg false]⟩ : Rows) := rfl
  have ht1 := next_row_match (some c) false r1
    [Package.rowPkg r2, Package.donePkg false] dst (by rw [hd, h1])
    (by simp)
  have ht2 := next_row_match (some c) false r2 [Package.donePkg false] r1
    (by rw [h1, h2]) (by simp)
  have ht3 := next_done_final (some c) false [] r2 (by simp)
  simp only [hs0, ht1, ht2, ht3]
  simp [Columns]

/-- Witness for C1: the stream [RowFormat([a int]), Row([1]), Row([2]),
Completion(more=false)] iterated with a one-slot destination. -/
theorem rows_next_two_rows_then_depleted_witness :
    ([Value.vInt 1] : List Value).length
      = [(⟨"a", 4, "INT"⟩ : FieldFmt)].length ∧
    ([Value.vInt 2] : List Value).length
      = [(⟨"a", 4, "INT"⟩ : FieldFmt)].length ∧
    ([Value.vInt 0] : List Value).length
      = [(⟨"a", 4, "INT"⟩ : FieldFmt)].length ∧
    (let s0 := mkRows [Package.rowFmtPkg [⟨"a", 4, "INT"⟩],
      Package.rowPkg [Value.vInt 1], Package.rowPkg [Value.vInt 2],
      Package.donePkg false]
    let t1 := Next s0 [Value.vInt 0]
    let t2 := Next t1.1 t1.2.1
    let t3 := Next t2.1 t2.2.1
    t1.2.2 = none ∧ t1.2.1 = [Value.vInt 1] ∧ t2.2.2 = none ∧
    t2.2.1 = [Value.vInt 2] ∧ t3.2.2 = some GoErr.eof ∧
    Columns s0 = [⟨"a", 4, "INT"⟩].map FieldFmt.name ∧
    Columns t1.1 = [⟨"a", 4, "INT"⟩].map FieldFmt.name ∧
    Columns t2.1 = [⟨"a", 4, "INT"⟩].map FieldFmt.name ∧
    Columns t3.1 = [⟨"a", 4, "INT"⟩].map FieldFmt.name) :=
  ⟨rfl, rfl, rfl,
    rows_next_two_rows_then_depleted [⟨"a", 4, "INT"⟩] [Value.vInt 1]
      [Value.vInt 2] [Value.vInt 0] rfl rfl rfl⟩

/-- Claim C2, evaluated at its failing input (code bug): for the stream
[RowFormat(c1), Completion(more=true), RowFormat(c2), Row(r),
Completion(more=false)], the first Next call does report Depleted with
HasNextResultSet true and c2 stored as the active format — but
NextResultSet then stops successfully on the Row message, consuming r
(its classifier returns stop on Row packages and continue on RowFormat
packages, contradicting the source comment "discard all RowPackage
until either end of communication or next RowFmtPackage"), so the
following Next reports Depleted instead of yielding r. -/
theorem nextResultSet_consumes_pending_row :
    let s0 : Rows := mkRows [Package.rowFmtPkg [⟨"a", 4, "INT"⟩],
      Package.donePkg true, Package.rowFmtPkg [⟨"b", 8, "BIGINT"⟩],
      Package.rowPkg [Value.vInt 7], Package.donePkg false]
    let t1 := Next s0 [Value.vInt 0]
    let n := NextResultSet t1.1
    let t2 := Next n.1 [Value.vInt 0]
    t1.2.2 = some GoErr.eof ∧
    (HasNextResultSet t1.1).2 = true ∧
    t1.1.RowFmt = some [⟨"b", 8, "BIGINT"⟩] ∧
    n.2 = none ∧
    n.1.channel = [Package.donePkg false] ∧
    t2.2.2 = some GoErr.eof ∧ t2.2.1 = [Value.vInt 0] :=
  ⟨rfl, rfl, rfl, rfl, rfl, rfl, rfl⟩

/-- Claim C5: HasNextResultSet is edge-triggered: in every cursor state
it returns the current value of the pending-boundary flag, clears it
(touching nothing else), and an immediately repeated call returns
false. -/
theorem hasNextResultSet_edge_triggered (rows : Rows) :
    (HasNextResultSet rows).2 = rows.hasNextResultSet ∧
    (HasNextResultSet rows).1 = { rows with hasNextResultSet := false } ∧
    (HasNextResultSet (HasNextResultSet rows).1).2 = false := by
  obtain ⟨fmt, flag, ch⟩ := rows
  cases flag <;> simp [HasNextResultSet]

/-- Claim C7: on the transaction stack, begin(None, Some "t1") then
begin(Some t1, None) then commit(t1) with the child still open fails
with illegal nesting and leaves the stack unchanged; after
rollback(child), commit(t1) succeeds and leaves the stack empty. -/
theorem tx_illegal_nesting_scenario :
    let st0 : TxManager := ⟨[], 0⟩
    let b1 := st0.begin none (some "t1")
    let b2 := b1.1.begin (some 0) none
    let c1 := b2.1.commit 0
    let rb := b2.1.rollback 1
    let c2 := rb.1.commit 0
    b1.2 = Except.ok 0 ∧ b2.2 = Except.ok 1 ∧
    c1.2 = some TxErr.illegalNesting ∧ c1.1 = b2.1 ∧
    rb.2 = none ∧ c2.2 = none ∧ c2.1.stack = [] :=
  ⟨rfl, rfl, rfl, rfl, rfl, rfl, rfl⟩

/-- Claim C8 counterexample: a successful Next call can consume more
than one message from the channel — here an OrderByHint is drained
before the Row, so success consumes two messages, not exactly one. -/
theorem next_success_consumes_two_messages :
    let rows0 : Rows := ⟨some [⟨"a", 4, "INT"⟩], false,
      [Package.orderByPkg, Package.rowPkg [Value.vInt 1]]⟩
    (Next rows0 [Value.vInt 0]).2.2 = none ∧
    (Next rows0 [Value.vInt 0]).1.channel = [] ∧
    rows0.channel.length = 2 :=
  ⟨rfl, rfl, rfl⟩

/-- Claim C9 counterexample: the per-column metadata lookups do not
return their "not available" sentinels for every out-of-range index —
a negative index, or any index when no format is active, hits a Go
runtime panic (modelled as `none`) instead of the sentinel. -/
theorem column_metadata_panics_out_of_range :
    ColumnTypeLength ⟨some [⟨"a", 30, "CHAR"⟩], false, []⟩ (-1) = none ∧
    ColumnTypeLength ⟨none, false, []⟩ 0 = none ∧
    ColumnTypeDatabaseTypeName ⟨some [⟨"a", 30, "CHAR"⟩], false, []⟩ (-1)
      = none ∧
    ColumnTypeDatabaseTypeName ⟨none, false, []⟩ 0 = none :=
  ⟨rfl, rfl, rfl, rfl⟩

/-- Claim C3: for every Row message and destination buffer (in a state
where Next reaches classification), a field-count mismatch fails with
the schema-mismatch error and leaves the destination entirely
unchanged — never a partial row; matching counts copy every decoded
field into the destination in order and return success. -/
theorem next_row_schema_mismatch_or_copy (fmt : Option (List FieldFmt))
    (flag : Bool) (fields dst : List Value) (rest : List Package)
    (hentry : ¬(fmt = none ∧ dst.length = 0)) :
    (dst.length ≠ fields.length →
      (Next ⟨fmt, flag, Package.rowPkg fields :: rest⟩ dst).2.1 = dst ∧
      (Next ⟨fmt, flag, Package.rowPkg fields :: rest⟩ dst).2.2
        = some (GoErr.wrapped "go-ase: error reading next row package: "
            (GoErr.invalidDestCount fields.length dst.length))) ∧
    (dst.length = fields.length →
      (Next ⟨fmt, flag, Package.rowPkg fields :: rest⟩ dst).2.1 = fields ∧
      (Next ⟨fmt, flag, Package.rowPkg fields :: rest⟩ dst).2.2 = none) := by
  constructor
  · intro hne
    rw [next_row_mismatch fmt flag fields rest dst hne hentry]
    exact ⟨rfl, rfl⟩
  · intro heq
    rw [next_row_match fmt flag fields rest dst heq hentry]
    exact ⟨rfl, rfl⟩

/-- Witness for C3: a two-field row against a one-slot destination
fails with schema mismatch and leaves the destination unchanged. -/
theorem next_row_schema_mismatch_or_copy_witness :
    ¬((some [(⟨"a", 4, "INT"⟩ : FieldFmt)] : Option (List FieldFmt)) = none
        ∧ ([Value.vInt 0] : List Value).length = 0) ∧
    ([Value.vInt 0] : List Value).length
      ≠ ([Value.vInt 1, Value.vInt 2] : List Value).length ∧
    (Next ⟨some [⟨"a", 4, "INT"⟩], false,
        [Package.rowPkg [Value.vInt 1, Value.vInt 2]]⟩
      [Value.vInt 0]).2.1 = [Value.vInt 0] ∧
    (Next ⟨some [⟨"a", 4, "INT"⟩], false,
        [Package.rowPkg [Value.vInt 1, Value.vInt 2]]⟩
      [Value.vInt 0]).2.2
      = some (GoErr.wrapped "go-ase: error reading next row package: "
          (GoErr.invalidDestCount 2 1)) := by
  refine ⟨by simp, by decide, ?_⟩
  exact (next_row_schema_mismatch_or_copy (some [⟨"a", 4, "INT"⟩]) false
    [Value.vInt 1, Value.vInt 2] [Value.vInt 0] [] (by simp)).1 (by decide)

/-- Claim C4: a zero ReturnStatus message is consumed transparently
(Next behaves as if the message were absent), while a nonzero one makes
Next fail with the procedure-failed error carrying the code, with no
later message of the stream consumed or classified. -/
theorem next_return_status_classification (fmt : Option (List FieldFmt))
    (flag : Bool) (code : Int) (rest : List Package) (dst : List Value)
    (hentry : ¬(fmt = none ∧ dst.length = 0)) :
    (code = 0 →
      Next ⟨fmt, flag, Package.returnStatusPkg code :: rest⟩ dst
        = Next ⟨fmt, flag, rest⟩ dst) ∧
    (code ≠ 0 →
      Next ⟨fmt, flag, Package.returnStatusPkg code :: rest⟩ dst
        = (⟨fmt, flag, rest⟩, dst,
          some (GoErr.wrapped "go-ase: error reading next row package: "
            (GoErr.queryFailed code)))) := by
  constructor
  · intro h0
    subst h0
    exact next_skip_head fmt flag (Package.returnStatusPkg 0) rest dst
      (by simp [nextClassify]) hentry
  · intro hne
    exact next_return_status_nonzero fmt flag code rest dst hne hentry

/-- Witness for C4: return status 5 fails with the procedure-failed
error before the following Row message is touched. -/
theorem next_return_status_classification_witness :
    ¬((some [(⟨"a", 4, "INT"⟩ : FieldFmt)] : Option (List FieldFmt)) = none
        ∧ ([Value.vInt 0] : List Value).length = 0) ∧
    (5 : Int) ≠ 0 ∧
    Next ⟨some [⟨"a", 4, "INT"⟩], false,
        [Package.returnStatusPkg 5, Package.rowPkg [Value.vInt 1]]⟩
      [Value.vInt 0]
      = (⟨some [⟨"a", 4, "INT"⟩], false, [Package.rowPkg [Value.vInt 1]]⟩,
        [Value.vInt 0],
        some (GoErr.wrapped "go-ase: error reading next row package: "
          (GoErr.queryFailed 5))) := by
  refine ⟨by simp, by decide, ?_⟩
  exact (next_return_status_classification (some [⟨"a", 4, "INT"⟩]) false 5
    [Package.rowPkg [Value.vInt 1]] [Value.vInt 0] (by simp)).2 (by decide)

/-- Claim C10: Next and NextResultSet never return a wrapped form of the
Depleted sentinel: whenever the returned error's wrapping chain contains
io.EOF (or, for NextResultSet, the channel's no-package-ready error),
the returned value is the bare io.EOF sentinel itself. -/
theorem depleted_error_never_wrapped (rows : Rows) (dst : List Value)
    (e f : GoErr) :
    ((Next rows dst).2.2 = some e → e.isEOF = true → e = GoErr.eof) ∧
    ((NextResultSet rows).2 = some f →
      (f.isEOF = true ∨ f.isNoPackageReady = true) → f = GoErr.eof) := by
  constructor
  · intro he hEOF
    unfold Next at he
    by_cases hc : rows.RowFmt = none ∧ dst.length = 0
    · rw [if_pos hc] at he
      have he2 : (some GoErr.eof : Option GoErr) = some e := he
      exact (Option.some.injEq _ _ ▸ he2).symm
    · rw [if_neg hc] at he
      rcases hnpu : NextPackageUntil true nextClassify
          (rows.RowFmt, rows.hasNextResultSet, dst) rows.channel
        with ⟨⟨fmt2, flag2, dst2⟩, ch2, oe⟩
      rw [hnpu] at he
      rcases oe with - | e0
      · have he2 : (none : Option GoErr) = some e := he
        simp at he2
      · have he2 : (if e0.isEOF = true then
            ((⟨fmt2, flag2, ch2⟩ : Rows), dst2, some GoErr.eof)
          else (⟨fmt2, flag2, ch2⟩, dst2,
            some (GoErr.wrapped "go-ase: error reading next row package: "
              e0))).2.2 = some e := he
        by_cases h0 : e0.isEOF = true
        · rw [if_pos h0] at he2
          have he3 : (some GoErr.eof : Option GoErr) = some e := he2
          exact (Option.some.injEq _ _ ▸ he3).symm
        · rw [if_neg h0] at he2
          have he3 : (some (GoErr.wrapped
              "go-ase: error reading next row package: " e0)
                : Option GoErr) = some e := he2
          have hee : e = GoErr.wrapped
              "go-ase: error reading next row package: " e0 :=
            (Option.some.injEq _ _ ▸ he3).symm
          subst hee
          exact absurd hEOF h0
  · intro hf hdis
    unfold NextResultSet at hf
    rcases hnpu : NextPackageUntil false nrsClassify
        (rows.RowFmt, rows.hasNextResultSet) rows.channel
      with ⟨⟨fmt2, flag2⟩, ch2, oe⟩
    rw [hnpu] at hf
    rcases oe with - | e0
    · have hf2 : (none : Option GoErr) = some f := hf
      simp at hf2
    · have hf2 : (if (e0.isNoPackageReady || e0.isEOF) = true then
          ((⟨fmt2, flag2, ch2⟩ : Rows), some GoErr.eof)
        else (⟨fmt2, flag2, ch2⟩,
          some (GoErr.wrapped "go-ase: error reading next package: "
            e0))).2 = some f := hf
      by_cases h0 : (e0.isNoPackageReady || e0.isEOF) = true
      · rw [if_pos h0] at hf2
        have hf3 : (some GoErr.eof : Option GoErr) = some f := hf2
        exact (Option.some.injEq _ _ ▸ hf3).symm
      · rw [if_neg h0] at hf2
        have hf3 : (some (GoErr.wrapped
            "go-ase: error reading next package: " e0)
              : Option GoErr) = some f := hf2
        have hff : f = GoErr.wrapped
            "go-ase: error reading next package: " e0 :=
          (Option.some.injEq _ _ ▸ hf3).symm
        subst hff
        rcases hdis with hd | hd
        · exact absurd (by simpa [GoErr.isEOF] using hd)
            (fun hx => h0 (by simp [hx]))
        · exact absurd (by simpa [GoErr.isNoPackageReady] using hd)
            (fun hx => h0 (by simp [hx]))

/-- Witness for C10: on an exhausted channel both methods report the
bare io.EOF sentinel. -/
theorem depleted_error_never_wrapped_witness :
    (Next ⟨none, false, []⟩ []).2.2 = some GoErr.eof ∧
    GoErr.eof.isEOF = true ∧
    (NextResultSet ⟨none, false, []⟩).2 = some GoErr.eof ∧
    GoErr.eof = GoErr.eof :=
  ⟨rfl, rfl, rfl,
    (depleted_error_never_wrapped ⟨none, false, []⟩ [] GoErr.eof
      GoErr.eof).1 rfl rfl⟩

/-- On an exhausted channel, `NextResultSet` reads nothing (the
non-blocking read reports no-package-ready) and returns the bare
depletion sentinel with the cursor unchanged. -/
theorem nextResultSet_nil (rows : Rows) (h : rows.channel = []) :
    NextResultSet rows = (rows, some GoErr.eof) := by
  unfold NextResultSet
  rw [h]
  show ((⟨rows.RowFmt, rows.hasNextResultSet, []⟩ : Rows), some GoErr.eof)
    = (rows, some GoErr.eof)
  rw [← h]

/-- `Close` on an already-depleted (empty) channel consumes nothing and
returns success. -/
theorem close_empty (rows : Rows) (h : rows.channel = []) :
    Close rows = (rows, none) := by
  have hnrs := nextResultSet_nil rows h
  rw [Close.eq_def]
  split
  · rename_i rows2 heq
    rw [hnrs] at heq
    simp at heq
  · rename_i rows2 e heq
    rw [hnrs] at heq
    have h1 : rows = rows2 := congrArg Prod.fst heq
    have h2 : GoErr.eof = e := by
      have := congrArg Prod.snd heq
      simpa using this
    rw [← h1, ← h2]
    rfl

/-- Any error escaping `Close` is the non-depletion wrapping of an
inner drain failure: its chain never contains io.EOF. -/
theorem close_err_aux :
    ∀ (n : Nat) (rows : Rows), rows.channel.length ≤ n →
      ∀ e, (Close rows).2 = some e →
        e.isEOF = false ∧
        ∃ inner,
          e = GoErr.wrapped "go-ase: error consuming result sets: " inner := by
  intro n
  induction n with
  | zero =>
    intro rows hlen e he
    have h0 : rows.channel = [] := List.length_eq_zero.mp (Nat.le_zero.mp hlen)
    rw [close_empty rows h0] at he
    simp at he
  | succ n ih =>
    intro rows hlen e he
    rw [Close.eq_def] at he
    split at he
    · rename_i rows2 heq
      have hlt := nextResultSet_none_channel_lt rows rows2 heq
      exact ih rows2 (by omega) e he
    · rename_i rows2 e0 heq
      by_cases h0 : e0.isEOF = true
      · rw [if_pos h0] at he
        simp at he
      · rw [if_neg h0] at he
        simp at he
        have h0f : e0.isEOF = false := by
          cases hb : e0.isEOF
          · rfl
          · exact absurd hb h0
        rw [← he]
        exact ⟨by simpa [GoErr.isEOF] using h0f, e0, rfl⟩

/-- Claim C6: Close repeatedly drains result sets until depletion and
then returns success — the Depleted sentinel never escapes Close, and
any other drain failure is returned wrapped; calling Close when the
stream is already depleted (empty channel) performs no reads and
returns success, leaving the cursor unchanged. -/
theorem close_drains_until_depleted (rows : Rows) :
    (∀ e, (Close rows).2 = some e →
      e.isEOF = false ∧
      ∃ inner,
        e = GoErr.wrapped "go-ase: error consuming result sets: " inner) ∧
    (rows.channel = [] → Close rows = (rows, none)) :=
  ⟨fun e he => close_err_aux rows.channel.length rows le_rfl e he,
    fun h => close_empty rows h⟩

/-- Witness for C6: Close on a depleted cursor returns success without
consuming anything. -/
theorem close_drains_until_depleted_witness :
    (⟨none, false, []⟩ : Rows).channel = [] ∧
    Close ⟨none, false, []⟩ = (⟨none, false, []⟩, none) :=
  ⟨rfl, (close_drains_until_depleted ⟨none, false, []⟩).2 rfl⟩

/-- A successful read with Next's classifier consumes zero or more
non-Row skip messages followed by exactly one Row message. -/
theorem npu_next_success_shape :
    ∀ (ch : List Package) (st st2 : Option (List FieldFmt) × Bool × List Value)
      (ch2 : List Package),
      NextPackageUntil true nextClassify st ch = (st2, ch2, none) →
      ∃ skipped fields,
        ch = skipped ++ Package.rowPkg fields :: ch2 ∧
        ∀ p ∈ skipped, ∀ fs, p ≠ Package.rowPkg fs := by
  intro ch
  induction ch with
  | nil =>
    intro st st2 ch2 h
    simp [NextPackageUntil] at h
  | cons pkg rest ih =>
    intro st st2 ch2 h
    match pkg with
    | .rowPkg fields =>
      by_cases hlen : st.2.2.length ≠ fields.length
      · have hc : nextClassify st (Package.rowPkg fields)
            = (st, true,
              some (GoErr.invalidDestCount fields.length st.2.2.length)) := by
          simp [nextClassify, hlen]
        rw [NextPackageUntil, hc] at h
        simp at h
      · have hlen2 : st.2.2.length = fields.length := by
          by_contra hx
          exact hlen hx
        have hc : nextClassify st (Package.rowPkg fields)
            = ((st.1, st.2.1, fields), true, none) := by
          simp [nextClassify, hlen2]
        rw [NextPackageUntil, hc] at h
        have hch : rest = ch2 := congrArg (fun t => t.2.1) h
        refine ⟨[], fields, ?_, by simp⟩
        rw [List.nil_append, hch]
    | .rowFmtPkg fmts =>
      have hc : nextClassify st (Package.rowFmtPkg fmts)
          = ((some fmts, true, st.2.2), false, some GoErr.eof) := by
        simp [nextClassify]
      rw [NextPackageUntil, hc] at h
      simp at h
    | .orderByPkg =>
      have hc : nextClassify st Package.orderByPkg = (st, false, none) := rfl
      rw [NextPackageUntil, hc] at h
      obtain ⟨skipped, fields, hsh, hnr⟩ := ih st st2 ch2 h
      refine ⟨Package.orderByPkg :: skipped, fields, ?_, ?_⟩
      · rw [List.cons_append, ← hsh]
      · intro p hp fs
        rcases List.mem_cons.mp hp with hp1 | hp2
        · subst hp1; simp
        · exact hnr p hp2 fs
    | .donePkg more =>
      match more with
      | true =>
        have hc : nextClassify st (Package.donePkg true)
            = (st, false, none) := rfl
        rw [NextPackageUntil, hc] at h
        obtain ⟨skipped, fields, hsh, hnr⟩ := ih st st2 ch2 h
        refine ⟨Package.donePkg true :: skipped, fields, ?_, ?_⟩
        · rw [List.cons_append, ← hsh]
        · intro p hp fs
          rcases List.mem_cons.mp hp with hp1 | hp2
          · subst hp1; simp
          · exact hnr p hp2 fs
      | false =>
        have hc : nextClassify st (Package.donePkg false)
            = (st, true, some (GoErr.wrapped "go-ase: " GoErr.eof)) := rfl
        rw [NextPackageUntil, hc] at h
        simp at h
    | .returnStatusPkg code =>
      by_cases hcode : code = 0
      · subst hcode
        have hc : nextClassify st (Package.returnStatusPkg 0)
            = (st, false, none) := by
          simp [nextClassify]
        rw [NextPackageUntil, hc] at h
        obtain ⟨skipped, fields, hsh, hnr⟩ := ih st st2 ch2 h
        refine ⟨Package.returnStatusPkg 0 :: skipped, fields, ?_, ?_⟩
        · rw [List.cons_append, ← hsh]
        · intro p hp fs
          rcases List.mem_cons.mp hp with hp1 | hp2
          · subst hp1; simp
          · exact hnr p hp2 fs
      · have hc : nextClassify st (Package.returnStatusPkg code)
            = (st, true, some (GoErr.queryFailed code)) := by
          simp [nextClassify, hcode]
        rw [NextPackageUntil, hc] at h
        simp at h
    | .otherPkg =>
      have hc : nextClassify st Package.otherPkg
          = (st, true, some GoErr.unhandledPackage) := rfl
      rw [NextPackageUntil, hc] at h
      simp at h

/-- Claim C8 (amended): on every successful Next call at least one
message is consumed from the Channel — zero or more non-Row skip
messages followed by exactly one Row message; on depletion or failure
zero or more messages may have been consumed (the channel is always
left at a suffix of its previous position). -/
theorem next_consumption_shape (rows : Rows) (dst : List Value) :
    ((Next rows dst).2.2 = none →
      ∃ skipped fields,
        rows.channel
          = skipped ++ Package.rowPkg fields :: (Next rows dst).1.channel ∧
        ∀ p ∈ skipped, ∀ fs, p ≠ Package.rowPkg fs) ∧
    (∃ consumed, rows.channel = consumed ++ (Next rows dst).1.channel) := by
  by_cases hentry : rows.RowFmt = none ∧ dst.length = 0
  · have hN : Next rows dst = (rows, dst, some GoErr.eof) := by
      unfold Next
      rw [if_pos hentry]
    rw [hN]
    constructor
    · intro hnone
      simp at hnone
    · exact ⟨[], by simp⟩
  · rcases hnpu : NextPackageUntil true nextClassify
        (rows.RowFmt, rows.hasNextResultSet, dst) rows.channel
      with ⟨⟨fmt2, flag2, dst2⟩, ch2, oe⟩
    have hsuf : ∃ consumed, rows.channel = consumed ++ ch2 := by
      obtain ⟨consumed, hcons⟩ := npu_suffix true nextClassify rows.channel
        (rows.RowFmt, rows.hasNextResultSet, dst)
      rw [hnpu] at hcons
      exact ⟨consumed, hcons⟩
    rcases oe with - | e0
    · have hN : Next rows dst = (⟨fmt2, flag2, ch2⟩, dst2, none) := by
        unfold Next
        rw [if_neg hentry, hnpu]
      rw [hN]
      constructor
      · intro _
        obtain ⟨skipped, fields, hsh, hnr⟩ :=
          npu_next_success_shape rows.channel _ _ _ hnpu
        exact ⟨skipped, fields, hsh, hnr⟩
      · exact hsuf
    · by_cases h0 : e0.isEOF = true
      · have hN : Next rows dst = (⟨fmt2, flag2, ch2⟩, dst2, some GoErr.eof) := by
          unfold Next
          rw [if_neg hentry, hnpu]
          show (if e0.isEOF = true then
              ((⟨fmt2, flag2, ch2⟩ : Rows), dst2, some GoErr.eof)
            else (⟨fmt2, flag2, ch2⟩, dst2,
              some (GoErr.wrapped "go-ase: error reading next row package: "
                e0)))
            = (⟨fmt2, flag2, ch2⟩, dst2, some GoErr.eof)
          rw [if_pos h0]
        rw [hN]
        exact ⟨fun hnone => by simp at hnone, hsuf⟩
      · have hN : Next rows dst = (⟨fmt2, flag2, ch2⟩, dst2,
            some (GoErr.wrapped "go-ase: error reading next row package: "
              e0)) := by
          unfold Next
          rw [if_neg hentry, hnpu]
          show (if e0.isEOF = true then
              ((⟨fmt2, flag2, ch2⟩ : Rows), dst2, some GoErr.eof)
            else (⟨fmt2, flag2, ch2⟩, dst2,
              some (GoErr.wrapped "go-ase: error reading next row package: "
                e0)))
            = (⟨fmt2, flag2, ch2⟩, dst2,
              some (GoErr.wrapped "go-ase: error reading next row package: "
                e0))
          rw [if_neg h0]
        rw [hN]
        exact ⟨fun hnone => by simp at hnone, hsuf⟩

/-- Witness for C8 (amended): a successful call that drains one
OrderByHint before its Row. -/
theorem next_consumption_shape_witness :
    (Next ⟨some [⟨"a", 4, "INT"⟩], false,
        [Package.orderByPkg, Package.rowPkg [Value.vInt 1]]⟩
      [Value.vInt 0]).2.2 = none ∧
    ∃ skipped fields,
      ([Package.orderByPkg, Package.rowPkg [Value.vInt 1]] : List Package)
        = skipped ++ Package.rowPkg fields ::
            (Next ⟨some [⟨"a", 4, "INT"⟩], false,
              [Package.orderByPkg, Package.rowPkg [Value.vInt 1]]⟩
            [Value.vInt 0]).1.channel ∧
      ∀ p ∈ skipped, ∀ fs, p ≠ Package.rowPkg fs :=
  ⟨rfl,
    (next_consumption_shape ⟨some [⟨"a", 4, "INT"⟩], false,
      [Package.orderByPkg, Package.rowPkg [Value.vInt 1]]⟩
      [Value.vInt 0]).1 rfl⟩

/-- Claim C9 (amended): with an active format, every index at or above
the column count makes the metadata lookups return their "not
available" sentinels ((0, false) and "") without failing; the amendment
excludes negative indices and the no-active-format state, which panic. -/
theorem column_metadata_sentinel_above_range (rows : Rows)
    (fmts : List FieldFmt) (index : Int)
    (hfmt : rows.RowFmt = some fmts)
    (hidx : (fmts.length : Int) ≤ index) :
    ColumnTypeLength rows index = some (0, false) ∧
    ColumnTypeDatabaseTypeName rows index = some "" := by
  constructor
  · unfold ColumnTypeLength
    rw [hfmt]
    simp [hidx]
  · unfold ColumnTypeDatabaseTypeName
    rw [hfmt]
    simp [hidx]

/-- Witness for C9 (amended): index 3 against a one-column format. -/
theorem column_metadata_sentinel_above_range_witness :
    (⟨some [⟨"a", 30, "CHAR"⟩], false, []⟩ : Rows).RowFmt
      = some [⟨"a", 30, "CHAR"⟩] ∧
    (([(⟨"a", 30, "CHAR"⟩ : FieldFmt)] : List FieldFmt).length : Int) ≤ 3 ∧
    ColumnTypeLength ⟨some [⟨"a", 30, "CHAR"⟩], false, []⟩ 3
      = some (0, false) ∧
    ColumnTypeDatabaseTypeName ⟨some [⟨"a", 30, "CHAR"⟩], false, []⟩ 3
      = some "" := by
  refine ⟨rfl, by decide, ?_, ?_⟩
  · exact (column_metadata_sentinel_above_range
      ⟨some [⟨"a", 30, "CHAR"⟩], false, []⟩ [⟨"a", 30, "CHAR"⟩] 3 rfl
      (by decide)).1
  · exact (column_metadata_sentinel_above_range
      ⟨some [⟨"a", 30, "CHAR"⟩], false, []⟩ [⟨"a", 30, "CHAR"⟩] 3 rfl
      (by decide)).2

end Ase
